import Mathlib

/-!
Shallow embedding of `src/assets/optical_flow_tracker.py`, a Lucas-Kanade
sparse optical-flow point tracker.

Modelling conventions:
* a point is a pair of rationals (the source stores float32 coordinates;
  the claims under study are structural, not about rounding);
* the OpenCV routines `cv2.calcOpticalFlowPyrLK` and
  `cv2.goodFeaturesToTrack` are third-party and are modelled as abstract
  function parameters (`FlowFn`, `DetectFn`) over an abstract image type;
* `cv2.circle(mask, c, 5, 0, -1)` (a filled raster circle) is modelled as
  the exact Euclidean disk of radius 5 around the integer-truncated centre;
* the Python `for`/`zip` loop of `Tracker.update_tracks` is `loopTracks`;
  Python `zip` truncation is `List.zip` truncation.
-/

unseal Rat.add Rat.sub Rat.mul

/-- A 2-D sub-pixel point `(x, y)`; the source keeps these as float32 pairs. -/
abbrev Point : Type := ℚ × ℚ

/-- A track: a Python list of points, oldest first. -/
abbrev Track : Type := List Point

/-- `self.track_len = 10` in `Tracker.__init__`. -/
def track_len : Nat := 10

/-- `self.detect_interval = 5` in `Tracker.__init__`. -/
def detect_interval : Nat := 5

/-- `track[-1]`: the newest point of a track.  The default value is never
reached on the tracks the tracker manipulates, which are all non-empty
(Python would raise `IndexError` on an empty list). -/
def lastD (t : Track) : Point := t.getLastD (0, 0)

/-- Lines 77-79: `abs(points_pld - points_old_inferred).reshape(-1, 2).max(-1)`,
the maximum per-axis absolute difference between two points. -/
def errorTerm (p q : Point) : ℚ := max |p.1 - q.1| |p.2 - q.2|

/-- Lines 90-94 of `Tracker.update_tracks`: `track.append((x, y))` followed by
`if len(track) > self.track_len: del track[0]`. -/
def extendTrack (t : Track) (p : Point) : Track :=
  let t' := t ++ [p]
  if track_len < t'.length then t'.drop 1 else t'

/-- The type of the optical-flow step `cv2.calcOpticalFlowPyrLK(imgA, imgB, pts,
None, **LK_PARAMS)`: output points, per-point status flags, per-point residual
errors, over an abstract image type. -/
def FlowFn (Img : Type) : Type :=
  Img → Img → List Point → List Point × List Bool × List ℚ

/-- Line 80-97: the accumulation loop of `Tracker.update_tracks` over
`zip(self.tracks, points_new.reshape(-1, 2), point_valid)`: an invalid entry is
skipped (`continue`), a valid one has its new point appended (with trimming)
and is kept. -/
def loopTracks : List (Track × Point × Bool) → List Track
  | [] => []
  | x :: rest =>
    if x.2.2 then extendTrack x.1 x.2.1 :: loopTracks rest else loopTracks rest

/-- Line 77-79: `point_valid = error_term < 1`, where `error_term` compares
`points_pld` (the tracks' newest points) with `points_old_inferred` (the
backward flow of the forward flow).  Note the source binds the status outputs
of both flow calls to `_st` and never reads them. -/
def point_valid {Img : Type} (flow : FlowFn Img) (img_old img_new : Img)
    (tracks : List Track) : List Bool :=
  let points_pld := tracks.map lastD
  let points_new := (flow img_old img_new points_pld).1
  let points_old_inferred := (flow img_new img_old points_new).1
  (points_pld.zip points_old_inferred).map
    (fun pq => decide (errorTerm pq.1 pq.2 < 1))

/-- `Tracker.update_tracks` (lines 62-102, visualization calls omitted):
forward flow from each track's newest point, backward flow on the result,
round-trip error gating, then the rebuild loop that assigns `self.tracks`. -/
def update_tracks {Img : Type} (flow : FlowFn Img) (img_old img_new : Img)
    (tracks : List Track) : List Track :=
  let points_pld := tracks.map lastD
  let points_new := (flow img_old img_new points_pld).1
  loopTracks (tracks.zip (points_new.zip (point_valid flow img_old img_new tracks)))

/-- Truncation of a rational toward zero, as the `np.int32` cast of a float. -/
def trunc (q : ℚ) : ℤ := q.num.tdiv q.den

/-- `np.int32(track[-1])` applied coordinate-wise. -/
def truncPt (p : Point) : ℤ × ℤ := (trunc p.1, trunc p.2)

/-- Squared Euclidean distance between two integer pixel positions. -/
def sqDist (a b : ℤ × ℤ) : ℤ := (a.1 - b.1) ^ 2 + (a.2 - b.2) ^ 2

/-- A detector mask: `true` at a pixel means the pixel is eligible. -/
def Mask : Type := ℤ × ℤ → Bool

/-- Lines 110-113 of `Tracker.get_new_tracks`: the mask starts all-eligible
(`mask[:] = 255`) and `cv2.circle(mask, (x, y), 5, 0, -1)` zeroes the radius-5
disk around the truncated newest point of every live track. -/
def buildMask (tracks : List Track) : Mask :=
  fun p => tracks.all (fun t => decide (25 < sqDist p (truncPt (lastD t))))

/-- The type of `cv2.goodFeaturesToTrack(frame_gray, mask=mask,
**FEATURE_PARAMS)`: either `None` or a list of detected points. -/
def DetectFn (Img : Type) : Type := Img → Mask → Option (List Point)

/-- `Tracker.get_new_tracks` (lines 107-122): build the mask, call the
detector, and append a fresh single-point track for every returned point. -/
def get_new_tracks {Img : Type} (detect : DetectFn Img) (frame_gray : Img)
    (tracks : List Track) : List Track :=
  match detect frame_gray (buildMask tracks) with
  | none => tracks
  | some ps => tracks ++ ps.map (fun p => [p])

/-- The mutable state of `Tracker` that the per-frame loop body reads and
writes: `self.tracks`, `self.frame_idx`, `self.prev_gray`. -/
structure TrackerState (Img : Type) where
  tracks : List Track
  frame_idx : Nat
  prev_gray : Img

/-- The track set after the (guarded) extension phase of one `run` iteration:
`if len(self.tracks) > 0: self.update_tracks(frame_gray, vis)`. -/
def extPhase {Img : Type} (flow : FlowFn Img) (st : TrackerState Img)
    (frame_gray : Img) : List Track :=
  if 0 < st.tracks.length then
    update_tracks flow st.prev_gray frame_gray st.tracks
  else st.tracks

/-- One iteration of the `while` loop of `Tracker.run` (lines 39-59, I/O and
visualization omitted): guarded extension, seeding when
`self.frame_idx % self.detect_interval == 0`, then the counter increment and
`self.prev_gray = frame_gray`. -/
def step {Img : Type} (flow : FlowFn Img) (detect : DetectFn Img)
    (st : TrackerState Img) (frame_gray : Img) : TrackerState Img :=
  let tracks1 := extPhase flow st frame_gray
  let tracks2 :=
    if st.frame_idx % detect_interval = 0 then
      get_new_tracks detect frame_gray tracks1
    else tracks1
  { tracks := tracks2, frame_idx := st.frame_idx + 1, prev_gray := frame_gray }

/-- Modelled from the spec (section 4.3, Corner Detector contract), since the
detector itself is the third-party `cv2.goodFeaturesToTrack`: every returned
point lies on a mask-eligible pixel, and returned points are pairwise at least
`minDistance = 7` apart (squared distance at least 49). -/
def goodFeatureList (tracks : List Track) : Option (List Point) → Prop
  | none => True
  | some ps =>
      (∀ p ∈ ps, buildMask tracks (truncPt p) = true) ∧
      ps.Pairwise (fun p q => 49 ≤ (p.1 - q.1) ^ 2 + (p.2 - q.2) ^ 2)

instance instDecidableGoodFeatureList (tracks : List Track)
    (res : Option (List Point)) : Decidable (goodFeatureList tracks res) :=
  match res with
  | none => isTrue trivial
  | some ps =>
      inferInstanceAs (Decidable ((∀ p ∈ ps, buildMask tracks (truncPt p) = true) ∧
        ps.Pairwise (fun p q : Point => 49 ≤ (p.1 - q.1) ^ 2 + (p.2 - q.2) ^ 2)))

/-- The newest points of the live tracks, as read by the seeding mask. -/
def newestPoints (tracks : List Track) : List Point := tracks.map lastD

/-- The state of every track object once the rebuild loop of
`Tracker.update_tracks` has run: a valid track has been extended in place, a
dropped track is left untouched (the loop `continue`s before mutating it). -/
def trackStatesAfter {Img : Type} (flow : FlowFn Img) (img_old img_new : Img)
    (tracks : List Track) : List Track :=
  (tracks.zip ((flow img_old img_new (tracks.map lastD)).1.zip
      (point_valid flow img_old img_new tracks))).map
    (fun x => if x.2.2 then extendTrack x.1 x.2.1 else x.1)

/-- A concrete flow instance over `Img := Nat`: every point stays put, but the
status output reports every point invalid. -/
def flowId : FlowFn Nat :=
  fun _ _ ps => (ps, ps.map (fun _ => false), ps.map (fun _ => (0 : ℚ)))

/-- A concrete flow instance: every point is shifted by `(2, 0)`, so the
backward pass lands 4 pixels away from the original point. -/
def flowShift2 : FlowFn Nat :=
  fun _ _ ps => (ps.map (fun p => (p.1 + 2, p.2)),
                 ps.map (fun _ => true), ps.map (fun _ => (0 : ℚ)))

/-- A concrete flow instance: points with `x < 100` stay put (round trip error
0), points with `x ≥ 100` drift by `(2, 0)` per call (round trip error 4). -/
def flowSel : FlowFn Nat :=
  fun _ _ ps => (ps.map (fun p => if p.1 < 100 then p else (p.1 + 2, p.2)),
                 ps.map (fun _ => true), ps.map (fun _ => (0 : ℚ)))

/-- A concrete detector instance returning a fixed feature list. -/
def detConst (ps : Option (List Point)) : DetectFn Nat := fun _ _ => ps

/-- A single live track sitting at the origin. -/
def trkOrigin : List Track := [[((0 : ℚ), (0 : ℚ))]]

/-- A concrete track of length exactly `track_len = 10`. -/
def trkTen : Track := (List.range 10).map (fun i => ((i : ℚ), (0 : ℚ)))

/-- Two live tracks: one whose round trip under `flowSel` is exact, one whose
round trip drifts by 4 pixels. -/
def trkPair : List Track := [[((0 : ℚ), 0)], [((100 : ℚ), 0)]]

/-- A concrete flow instance with the same point outputs as `flowId` but
different status flags and residual errors. -/
def flowIdTrue : FlowFn Nat :=
  fun _ _ ps => (ps, ps.map (fun _ => true), ps.map (fun _ => (37 : ℚ)))

/-- The track-length invariant of the spec: every live track has between 1 and
`track_len = 10` points. -/
def tracksInv (tracks : List Track) : Prop :=
  ∀ t ∈ tracks, 1 ≤ t.length ∧ t.length ≤ track_len

instance instDecidableTracksInv (tracks : List Track) :
    Decidable (tracksInv tracks) :=
  inferInstanceAs (Decidable (∀ t ∈ tracks, 1 ≤ t.length ∧ t.length ≤ track_len))

/-! ### Helper lemmas about the rebuild loop and the extension step -/

theorem loopTracks_eq_filterMap (l : List (Track × Point × Bool)) :
    loopTracks l
    = l.filterMap (fun x => if x.2.2 then some (extendTrack x.1 x.2.1) else none) := by
  induction l with
  | nil => rfl
  | cons x rest ih =>
    cases hb : x.2.2 <;> simp [loopTracks, hb, ih]

theorem loopTracks_length (l : List (Track × Point × Bool)) :
    (loopTracks l).length = (l.map (fun x => x.2.2)).count true := by
  induction l with
  | nil => rfl
  | cons x rest ih =>
    cases hb : x.2.2 <;> simp [loopTracks, hb, ih, List.count_cons]

theorem filterMap_zip_valid (T : List Track) (P Q : List Point) :
    (T.zip (P.zip (((T.map lastD).zip Q).map
        (fun pq => decide (errorTerm pq.1 pq.2 < 1))))).filterMap
      (fun x => if x.2.2 then some (extendTrack x.1 x.2.1) else none)
    = (T.zip (P.zip Q)).filterMap
      (fun x => if errorTerm (lastD x.1) x.2.2 < 1 then some (extendTrack x.1 x.2.1)
                else none) := by
  induction T generalizing P Q with
  | nil => rfl
  | cons t T ih =>
    cases P with
    | nil => rfl
    | cons p P =>
      cases Q with
      | nil => rfl
      | cons q Q =>
        by_cases h : errorTerm (lastD t) q < 1 <;>
          simp [List.filterMap_cons, h, ih]

theorem update_tracks_eq {Img : Type} (flow : FlowFn Img) (i1 i2 : Img)
    (tracks : List Track) :
    update_tracks flow i1 i2 tracks
    = (tracks.zip ((flow i1 i2 (tracks.map lastD)).1.zip
        (flow i2 i1 (flow i1 i2 (tracks.map lastD)).1).1)).filterMap
      (fun x => if errorTerm (lastD x.1) x.2.2 < 1 then some (extendTrack x.1 x.2.1)
                else none) := by
  simp only [update_tracks, point_valid]
  rw [loopTracks_eq_filterMap, filterMap_zip_valid]

theorem extendTrack_eq_cases (t : Track) (p : Point) :
    extendTrack t p = t ++ [p] ∨
      (1 ≤ t.length ∧ extendTrack t p = t.drop 1 ++ [p]) := by
  by_cases h : track_len < (t ++ [p]).length
  · refine Or.inr ⟨?_, ?_⟩
    · simp [track_len, List.length_append] at h ⊢; omega
    · simp only [extendTrack, if_pos h]
      exact List.drop_append_of_le_length
        (by simp [track_len, List.length_append] at h ⊢; omega)
  · exact Or.inl (by simp only [extendTrack, if_neg h])

theorem extendTrack_length_bounds (t : Track) (p : Point) :
    1 ≤ (extendTrack t p).length ∧
      (t.length ≤ track_len → (extendTrack t p).length ≤ track_len) := by
  simp only [extendTrack, track_len]
  by_cases h : (10 : Nat) < (t ++ [p]).length
  · rw [if_pos h]
    simp only [List.length_drop, List.length_append, List.length_cons,
      List.length_nil] at h ⊢
    omega
  · rw [if_neg h]
    simp only [List.length_append, List.length_cons, List.length_nil] at h ⊢
    omega

theorem mem_update_tracks {Img : Type} {flow : FlowFn Img} {i1 i2 : Img}
    {tracks : List Track} {t' : Track} (h : t' ∈ update_tracks flow i1 i2 tracks) :
    ∃ t ∈ tracks, ∃ p : Point, t' = extendTrack t p := by
  rw [update_tracks_eq] at h
  obtain ⟨⟨t, p, q⟩, hx, hfx⟩ := List.mem_filterMap.mp h
  by_cases hc : errorTerm (lastD t) q < 1
  · rw [if_pos hc] at hfx
    exact ⟨t, (List.of_mem_zip hx).1, p, (Option.some_injective _ hfx).symm⟩
  · rw [if_neg hc] at hfx; exact absurd hfx (by simp)

theorem mem_get_new_tracks {Img : Type} {detect : DetectFn Img} {frame : Img}
    {tracks : List Track} {t' : Track}
    (h : t' ∈ get_new_tracks detect frame tracks) :
    t' ∈ tracks ∨ ∃ p : Point, t' = [p] := by
  unfold get_new_tracks at h
  cases hd : detect frame (buildMask tracks) with
  | none => rw [hd] at h; exact Or.inl h
  | some ps =>
    rw [hd] at h
    rcases List.mem_append.mp h with h1 | h2
    · exact Or.inl h1
    · obtain ⟨p, -, hp⟩ := List.mem_map.mp h2
      exact Or.inr ⟨p, hp.symm⟩

/-! ### Claim theorems -/

/-- Claim C1 counterexample: the claim requires that a retained track passed
the validity check of both flow steps, but the source binds both status
outputs to `_st` and never reads them.  Under `flowId` every point stays in
place (round-trip error 0) while both flow calls report the point invalid
(`false`), and the single track is nevertheless retained and extended. -/
theorem c1_counterexample :
    update_tracks flowId 0 1 trkOrigin = [[((0 : ℚ), 0), ((0 : ℚ), 0)]] ∧
    (flowId 0 1 (trkOrigin.map lastD)).2.1 = [false] ∧
    (flowId 1 0 (flowId 0 1 (trkOrigin.map lastD)).1).2.1 = [false] := by
  decide

/-- Claim C1 (amended): in every extension pass a track is retained, with its
new point appended (and the oldest trimmed), exactly when the maximum
per-axis absolute difference between its original newest point and the
backward-inferred point is strictly below 1; the status flags and residual
errors reported by the two flow steps are never consulted, so any flow with
the same point outputs produces the same track set. -/
theorem c1_retained_iff_roundtrip_small {Img : Type} (flow : FlowFn Img)
    (img_old img_new : Img) (tracks : List Track) :
    (update_tracks flow img_old img_new tracks
      = (tracks.zip ((flow img_old img_new (tracks.map lastD)).1.zip
          (flow img_new img_old (flow img_old img_new (tracks.map lastD)).1).1)).filterMap
        (fun x => if errorTerm (lastD x.1) x.2.2 < 1 then some (extendTrack x.1 x.2.1)
                  else none)) ∧
    ∀ flow' : FlowFn Img,
      (∀ a b ps, (flow' a b ps).1 = (flow a b ps).1) →
      update_tracks flow' img_old img_new tracks
        = update_tracks flow img_old img_new tracks := by
  refine ⟨update_tracks_eq flow img_old img_new tracks, ?_⟩
  intro flow' hpts
  rw [update_tracks_eq, update_tracks_eq]
  simp only [hpts]

theorem c1_witness :
    update_tracks flowIdTrue 0 1 trkOrigin = update_tracks flowId 0 1 trkOrigin :=
  (c1_retained_iff_roundtrip_small flowId 0 1 trkOrigin).2 flowIdTrue
    (fun _ _ _ => rfl)

/-- Claim C4: a track holding exactly `track_len = 10` points that gets a new
point appended has its oldest point deleted, leaving exactly 10 points with
the surviving points in their original order followed by the new point. -/
theorem c4_window_bound_trim (t : Track) (p : Point) (h : t.length = track_len) :
    extendTrack t p = t.drop 1 ++ [p] ∧ (extendTrack t p).length = track_len := by
  have h10 : t.length = 10 := by simpa [track_len] using h
  have hlt : track_len < (t ++ [p]).length := by
    simp [List.length_append, track_len, h10]
  refine ⟨?_, ?_⟩
  · simp only [extendTrack, if_pos hlt]
    exact List.drop_append_of_le_length (by omega)
  · simp only [extendTrack, if_pos hlt]
    simp [List.length_drop, List.length_append, track_len, h10]

theorem c4_witness :
    trkTen.length = track_len ∧
    (extendTrack trkTen ((10 : ℚ), 0) = trkTen.drop 1 ++ [((10 : ℚ), 0)] ∧
      (extendTrack trkTen ((10 : ℚ), 0)).length = track_len) :=
  ⟨by decide, c4_window_bound_trim trkTen ((10 : ℚ), 0) (by decide)⟩

/-- Claim C8: the extension pass is deterministic and free of hidden state:
its result is a function of the live track set and of what the flow estimator
returns on the two calls the pass makes (forward from the newest points,
backward from the forward output), so two runs with identical frames and an
identical track set, whose flow calls therefore return the same batches,
produce identical track sets. -/
theorem c8_no_hidden_state {Img : Type} (flow flow' : FlowFn Img)
    (img_old img_new : Img) (tracks tracks' : List Track)
    (ht : tracks = tracks')
    (h1 : flow img_old img_new (tracks.map lastD)
        = flow' img_old img_new (tracks.map lastD))
    (h2 : flow img_new img_old (flow img_old img_new (tracks.map lastD)).1
        = flow' img_new img_old (flow img_old img_new (tracks.map lastD)).1) :
    update_tracks flow img_old img_new tracks
      = update_tracks flow' img_old img_new tracks' := by
  subst ht
  rw [update_tracks_eq, update_tracks_eq, ← h1, ← h2]

theorem c8_witness :
    update_tracks flowId 0 1 trkOrigin = update_tracks flowId 0 1 trkOrigin :=
  c8_no_hidden_state flowId flowId 0 1 trkOrigin trkOrigin rfl rfl rfl

/-- Claim C9: a seeding pass never touches the pre-existing tracks: they stay
an unchanged initial segment of the live list, everything the pass adds is
appended after them, and when the detector returns nothing the list is
entirely unchanged. -/
theorem c9_seeding_appends_only {Img : Type} (detect : DetectFn Img)
    (frame : Img) (tracks : List Track) :
    (get_new_tracks detect frame tracks).take tracks.length = tracks ∧
    (∀ ps, detect frame (buildMask tracks) = some ps →
      get_new_tracks detect frame tracks = tracks ++ ps.map (fun p => [p])) ∧
    (detect frame (buildMask tracks) = none →
      get_new_tracks detect frame tracks = tracks) := by
  refine ⟨?_, ?_, ?_⟩
  · unfold get_new_tracks
    cases hd : detect frame (buildMask tracks) with
    | none => simp
    | some ps => exact List.take_left tracks _
  · intro ps hd
    unfold get_new_tracks
    rw [hd]
  · intro hd
    unfold get_new_tracks
    rw [hd]

theorem c9_witness :
    get_new_tracks (detConst none) 0 trkOrigin = trkOrigin :=
  (c9_seeding_appends_only (detConst none) 0 trkOrigin).2.2 rfl

/-- Claim C3: one full per-frame iteration (guarded extension followed by the
periodic seeding, as `Tracker.run` performs them) preserves the invariant
that every live track has between 1 and `track_len = 10` points; seeds enter
with length exactly 1 and no operation empties a live track. -/
theorem c3_length_invariant {Img : Type} (flow : FlowFn Img)
    (detect : DetectFn Img) (st : TrackerState Img) (frame : Img)
    (hinv : tracksInv st.tracks) :
    tracksInv (step flow detect st frame).tracks := by
  have hext : tracksInv (extPhase flow st frame) := by
    unfold extPhase
    split
    · intro t' ht'
      obtain ⟨t, ht, p, rfl⟩ := mem_update_tracks ht'
      obtain ⟨h1, h2⟩ := extendTrack_length_bounds t p
      exact ⟨h1, h2 (hinv t ht).2⟩
    · exact hinv
  intro t' ht'
  simp only [step] at ht'
  split at ht'
  · rcases mem_get_new_tracks ht' with h | ⟨p, rfl⟩
    · exact hext _ h
    · exact ⟨by simp, by simp [track_len]⟩
  · exact hext _ ht'

theorem c3_witness :
    tracksInv trkOrigin ∧
    tracksInv (step flowId (detConst none) ⟨trkOrigin, 1, 0⟩ 1).tracks :=
  ⟨by decide,
   c3_length_invariant flowId (detConst none) ⟨trkOrigin, 1, 0⟩ 1 (by decide)⟩

/-- Claim C5: the source points of an extension pass are exactly the tracks'
newest points (`tracks.map lastD` is what the forward flow call receives), and
every surviving track is an original track with the corresponding forward
flow output appended at the end — either the whole old sequence or, after a
trim, its tail — so points are never reordered. -/
theorem c5_sources_newest_order_kept {Img : Type} (flow : FlowFn Img)
    (img_old img_new : Img) (tracks : List Track) :
    ∀ t' ∈ update_tracks flow img_old img_new tracks,
      ∃ (i : Nat) (h1 : i < tracks.length)
        (h2 : i < (flow img_old img_new (tracks.map lastD)).1.length),
        t' = extendTrack tracks[i] (flow img_old img_new (tracks.map lastD)).1[i] ∧
        (t' = tracks[i] ++ [(flow img_old img_new (tracks.map lastD)).1[i]] ∨
         t' = tracks[i].drop 1 ++ [(flow img_old img_new (tracks.map lastD)).1[i]]) := by
  intro t' ht'
  rw [update_tracks_eq] at ht'
  obtain ⟨x, hx, hfx⟩ := List.mem_filterMap.mp ht'
  obtain ⟨i, hi, hxi⟩ := List.mem_iff_getElem.mp hx
  have hib := hi
  rw [List.length_zip, lt_inf_iff] at hib
  obtain ⟨hit, hin⟩ := hib
  rw [List.length_zip, lt_inf_iff] at hin
  obtain ⟨hip, hif⟩ := hin
  rw [List.getElem_zip, List.getElem_zip] at hxi
  subst hxi
  split at hfx
  · refine ⟨i, hit, hip, (Option.some.inj hfx).symm, ?_⟩
    rcases extendTrack_eq_cases tracks[i]
        ((flow img_old img_new (tracks.map lastD)).1[i]) with hc | ⟨-, hc⟩
    · exact Or.inl ((Option.some.inj hfx).symm.trans hc)
    · exact Or.inr ((Option.some.inj hfx).symm.trans hc)
  · exact absurd hfx (by simp)

theorem c5_witness :
    ∃ (i : Nat) (h1 : i < trkOrigin.length)
      (h2 : i < (flowId 0 1 (trkOrigin.map lastD)).1.length),
      [((0 : ℚ), 0), ((0 : ℚ), 0)]
          = extendTrack trkOrigin[i] (flowId 0 1 (trkOrigin.map lastD)).1[i] ∧
      ([((0 : ℚ), 0), ((0 : ℚ), 0)]
          = trkOrigin[i] ++ [(flowId 0 1 (trkOrigin.map lastD)).1[i]] ∨
       [((0 : ℚ), 0), ((0 : ℚ), 0)]
          = trkOrigin[i].drop 1 ++ [(flowId 0 1 (trkOrigin.map lastD)).1[i]]) :=
  c5_sources_newest_order_kept flowId 0 1 trkOrigin
    [((0 : ℚ), 0), ((0 : ℚ), 0)] (by decide)

theorem update_tracks_length_eq {Img : Type} (flow : FlowFn Img)
    (img_old img_new : Img) (tracks : List Track)
    (hf : (flow img_old img_new (tracks.map lastD)).1.length = tracks.length)
    (hb : (flow img_new img_old
        (flow img_old img_new (tracks.map lastD)).1).1.length = tracks.length) :
    (update_tracks flow img_old img_new tracks).length
      = (point_valid flow img_old img_new tracks).count true := by
  have hvl : (point_valid flow img_old img_new tracks).length = tracks.length := by
    simp only [point_valid, List.length_map, List.length_zip, hb]
    omega
  have hle2 : (point_valid flow img_old img_new tracks).length
      ≤ (flow img_old img_new (tracks.map lastD)).1.length := by
    rw [hvl, hf]
  have hle1 : ((flow img_old img_new (tracks.map lastD)).1.zip
      (point_valid flow img_old img_new tracks)).length ≤ tracks.length := by
    rw [List.length_zip, hf, hvl]; omega
  have hmm : (tracks.zip ((flow img_old img_new (tracks.map lastD)).1.zip
        (point_valid flow img_old img_new tracks))).map
        (fun x => x.2.2)
      = ((tracks.zip ((flow img_old img_new (tracks.map lastD)).1.zip
          (point_valid flow img_old img_new tracks))).map Prod.snd).map Prod.snd := by
    rw [List.map_map]
    rfl
  show (loopTracks (tracks.zip ((flow img_old img_new (tracks.map lastD)).1.zip
      (point_valid flow img_old img_new tracks)))).length = _
  rw [loopTracks_length, hmm, List.map_snd_zip _ _ hle1, List.map_snd_zip _ _ hle2]

/-- Claim C7: a per-point consistency failure only removes that track: the
surviving count equals the number of points passing the check, and every track
whose own round-trip error is below 1 is still extended and kept, no matter
how many other points in the batch fail; the pass is a total function and
never aborts the frame. -/
theorem c7_per_point_failure_isolated {Img : Type} (flow : FlowFn Img)
    (img_old img_new : Img) (tracks : List Track)
    (hf : (flow img_old img_new (tracks.map lastD)).1.length = tracks.length)
    (hb : (flow img_new img_old
        (flow img_old img_new (tracks.map lastD)).1).1.length = tracks.length) :
    (update_tracks flow img_old img_new tracks).length
      = (point_valid flow img_old img_new tracks).count true ∧
    ∀ i : Nat, ∀ h1 : i < tracks.length,
      errorTerm (lastD tracks[i])
          ((flow img_new img_old (flow img_old img_new (tracks.map lastD)).1).1.getD
            i (0, 0)) < 1 →
      extendTrack tracks[i] ((flow img_old img_new (tracks.map lastD)).1.getD i (0, 0))
        ∈ update_tracks flow img_old img_new tracks := by
  refine ⟨update_tracks_length_eq flow img_old img_new tracks hf hb, ?_⟩
  intro i h1 herr
  have hip : i < (flow img_old img_new (tracks.map lastD)).1.length := by
    rw [hf]; exact h1
  have hif : i < (flow img_new img_old
      (flow img_old img_new (tracks.map lastD)).1).1.length := by
    rw [hb]; exact h1
  rw [List.getD_eq_getElem _ _ hif] at herr
  rw [List.getD_eq_getElem _ _ hip]
  rw [update_tracks_eq]
  have hz : i < (tracks.zip ((flow img_old img_new (tracks.map lastD)).1.zip
      (flow img_new img_old (flow img_old img_new (tracks.map lastD)).1).1)).length := by
    rw [List.length_zip, List.length_zip, hf, hb]
    omega
  refine List.mem_filterMap.mpr ⟨(tracks.zip ((flow img_old img_new (tracks.map lastD)).1.zip
      (flow img_new img_old (flow img_old img_new (tracks.map lastD)).1).1)).get ⟨i, hz⟩,
    List.get_mem _ _ _, ?_⟩
  have hget : (tracks.zip ((flow img_old img_new (tracks.map lastD)).1.zip
      (flow img_new img_old (flow img_old img_new (tracks.map lastD)).1).1)).get ⟨i, hz⟩
      = (tracks[i], ((flow img_old img_new (tracks.map lastD)).1[i],
          (flow img_new img_old (flow img_old img_new (tracks.map lastD)).1).1[i])) := by
    rw [List.get_eq_getElem, List.getElem_zip, List.getElem_zip]
  rw [hget, if_pos herr]

theorem c7_witness :
    ((flowSel 0 1 (trkPair.map lastD)).1.length = trkPair.length ∧
     (flowSel 1 0 (flowSel 0 1 (trkPair.map lastD)).1).1.length = trkPair.length) ∧
    extendTrack (trkPair.getD 0 []) ((flowSel 0 1 (trkPair.map lastD)).1.getD 0 (0, 0))
      ∈ update_tracks flowSel 0 1 trkPair :=
  ⟨⟨by decide, by decide⟩,
   (c7_per_point_failure_isolated flowSel 0 1 trkPair (by decide) (by decide)).2 0
     (by decide) (by decide)⟩

theorem point_valid_length {Img : Type} (flow : FlowFn Img)
    (img_old img_new : Img) (tracks : List Track)
    (hb : (flow img_new img_old
        (flow img_old img_new (tracks.map lastD)).1).1.length = tracks.length) :
    (point_valid flow img_old img_new tracks).length = tracks.length := by
  simp only [point_valid, List.length_map, List.length_zip, hb]
  omega

theorem point_valid_getElem {Img : Type} (flow : FlowFn Img)
    (img_old img_new : Img) (tracks : List Track)
    (hb : (flow img_new img_old
        (flow img_old img_new (tracks.map lastD)).1).1.length = tracks.length)
    (i : Nat) (h1 : i < tracks.length)
    (hv : i < (point_valid flow img_old img_new tracks).length) :
    (point_valid flow img_old img_new tracks)[i]
      = decide (errorTerm (lastD tracks[i])
          ((flow img_new img_old (flow img_old img_new
            (tracks.map lastD)).1).1.getD i (0, 0)) < 1) := by
  have hif : i < (flow img_new img_old
      (flow img_old img_new (tracks.map lastD)).1).1.length := by
    rw [hb]; exact h1
  have hzz : i < ((tracks.map lastD).zip (flow img_new img_old
      (flow img_old img_new (tracks.map lastD)).1).1).length := by
    rw [List.length_zip, List.length_map]
    omega
  simp only [point_valid, List.getElem_map, List.getElem_zip,
    List.getD_eq_getElem _ _ hif]

/-- Claim C10: a track that fails the round-trip consistency check is removed
from the live set without being mutated: the loop skips it before touching
it, so its object state after the pass equals its state before, it is marked
invalid, and the live set strictly shrinks. -/
theorem c10_dropped_track_unmutated {Img : Type} (flow : FlowFn Img)
    (img_old img_new : Img) (tracks : List Track)
    (hf : (flow img_old img_new (tracks.map lastD)).1.length = tracks.length)
    (hb : (flow img_new img_old
        (flow img_old img_new (tracks.map lastD)).1).1.length = tracks.length)
    (i : Nat) (h1 : i < tracks.length)
    (hbad : ¬ errorTerm (lastD tracks[i])
        ((flow img_new img_old (flow img_old img_new
          (tracks.map lastD)).1).1.getD i (0, 0)) < 1) :
    (trackStatesAfter flow img_old img_new tracks).getD i [] = tracks.getD i [] ∧
    (point_valid flow img_old img_new tracks).getD i true = false ∧
    (update_tracks flow img_old img_new tracks).length < tracks.length := by
  have hvl := point_valid_length flow img_old img_new tracks hb
  have hv : i < (point_valid flow img_old img_new tracks).length := by
    rw [hvl]; exact h1
  have hvi : (point_valid flow img_old img_new tracks)[i] = false := by
    rw [point_valid_getElem flow img_old img_new tracks hb i h1 hv]
    exact decide_eq_false hbad
  have hip : i < (flow img_old img_new (tracks.map lastD)).1.length := by
    rw [hf]; exact h1
  refine ⟨?_, ?_, ?_⟩
  · have hzs : i < (tracks.zip ((flow img_old img_new (tracks.map lastD)).1.zip
        (point_valid flow img_old img_new tracks))).length := by
      rw [List.length_zip, List.length_zip, hf, hvl]
      omega
    have hts : i < (trackStatesAfter flow img_old img_new tracks).length := by
      simp only [trackStatesAfter, List.length_map]
      exact hzs
    rw [List.getD_eq_getElem _ _ hts, List.getD_eq_getElem _ _ h1]
    simp only [trackStatesAfter, List.getElem_map, List.getElem_zip, hvi]
    simp
  · rw [List.getD_eq_getElem _ _ hv]
    exact hvi
  · rw [update_tracks_length_eq flow img_old img_new tracks hf hb]
    have hmem : false ∈ point_valid flow img_old img_new tracks := by
      rw [← hvi]
      exact List.getElem_mem hv
    have hne : (point_valid flow img_old img_new tracks).count true
        ≠ (point_valid flow img_old img_new tracks).length := by
      intro hcontra
      have := (List.count_eq_length.mp hcontra) false hmem
      simp at this
    have hle := List.count_le_length (a := true)
      (l := point_valid flow img_old img_new tracks)
    rw [← hvl]
    omega

theorem c10_witness :
    (trackStatesAfter flowShift2 0 1 trkOrigin).getD 0 [] = trkOrigin.getD 0 [] ∧
    (point_valid flowShift2 0 1 trkOrigin).getD 0 true = false ∧
    (update_tracks flowShift2 0 1 trkOrigin).length < trkOrigin.length :=
  c10_dropped_track_unmutated flowShift2 0 1 trkOrigin (by decide) (by decide) 0
    (by decide) (by decide)

theorem get_new_tracks_none {Img : Type} {detect : DetectFn Img} {frame : Img}
    {tracks : List Track} (hd : detect frame (buildMask tracks) = none) :
    get_new_tracks detect frame tracks = tracks := by
  unfold get_new_tracks
  rw [hd]

theorem get_new_tracks_some {Img : Type} {detect : DetectFn Img} {frame : Img}
    {tracks : List Track} {ps : List Point}
    (hd : detect frame (buildMask tracks) = some ps) :
    get_new_tracks detect frame tracks = tracks ++ ps.map (fun p => [p]) := by
  unfold get_new_tracks
  rw [hd]

theorem goodFeatureList_some_iff (tracks : List Track) (ps : List Point) :
    goodFeatureList tracks (some ps) ↔
      (∀ p ∈ ps, buildMask tracks (truncPt p) = true) ∧
      ps.Pairwise (fun p q => 49 ≤ (p.1 - q.1) ^ 2 + (p.2 - q.2) ^ 2) :=
  Iff.rfl

/-- Claim C2 counterexample: with one live track at the origin, the detector
may legitimately return the point (6, 0) — it lies outside the masked
radius-5 disk (distance 6 > 5) and trivially satisfies the pairwise
minimum-distance-7 contract — yet after the seeding pass the two newest
points of the live set are only 6 < 7 apart, violating the claimed
minimum-separation invariant. -/
theorem c2_counterexample :
    goodFeatureList trkOrigin
      (detConst (some [((6 : ℚ), 0)]) 0 (buildMask trkOrigin)) ∧
    ¬ (newestPoints (get_new_tracks (detConst (some [((6 : ℚ), 0)])) 0
        trkOrigin)).Pairwise
        (fun p q => 49 ≤ (p.1 - q.1) ^ 2 + (p.2 - q.2) ^ 2) := by
  decide

/-- Claim C2 (amended): immediately after a seeding pass, assuming the
corner-detector contract (returned points mask-eligible and pairwise at least
7 apart), the newly seeded points are pairwise at least 7 apart and each of
them lies strictly outside the radius-5 exclusion disk around every
pre-existing track's newest point (in truncated pixel coordinates); nothing
constrains the distance between two pre-existing newest points, and a new
point may come as close as 6 pixels to an old one. -/
theorem c2_seeding_separation {Img : Type} (detect : DetectFn Img)
    (frame : Img) (tracks : List Track)
    (hgood : goodFeatureList tracks (detect frame (buildMask tracks))) :
    (newestPoints ((get_new_tracks detect frame tracks).drop
        tracks.length)).Pairwise
      (fun p q => 49 ≤ (p.1 - q.1) ^ 2 + (p.2 - q.2) ^ 2) ∧
    ∀ tn ∈ (get_new_tracks detect frame tracks).drop tracks.length,
      ∀ told ∈ tracks,
        25 < sqDist (truncPt (lastD tn)) (truncPt (lastD told)) := by
  cases hd : detect frame (buildMask tracks) with
  | none =>
    rw [get_new_tracks_none hd, List.drop_length]
    exact ⟨List.Pairwise.nil, by simp⟩
  | some ps =>
    rw [get_new_tracks_some hd, List.drop_left]
    rw [hd, goodFeatureList_some_iff] at hgood
    obtain ⟨hmask, hpair⟩ := hgood
    constructor
    · simp only [newestPoints, List.map_map, List.pairwise_map]
      simpa [Function.comp, lastD] using hpair
    · intro tn htn told htold
      obtain ⟨p, hp, rfl⟩ := List.mem_map.mp htn
      have hm := hmask p hp
      simp only [buildMask, List.all_eq_true, decide_eq_true_eq] at hm
      simpa [lastD] using hm told htold

theorem c2_witness :
    goodFeatureList trkOrigin
      (detConst (some [((20 : ℚ), 0)]) 0 (buildMask trkOrigin)) ∧
    ((newestPoints ((get_new_tracks (detConst (some [((20 : ℚ), 0)])) 0
          trkOrigin).drop trkOrigin.length)).Pairwise
        (fun p q => 49 ≤ (p.1 - q.1) ^ 2 + (p.2 - q.2) ^ 2) ∧
     ∀ tn ∈ (get_new_tracks (detConst (some [((20 : ℚ), 0)])) 0
          trkOrigin).drop trkOrigin.length,
       ∀ told ∈ trkOrigin,
         25 < sqDist (truncPt (lastD tn)) (truncPt (lastD told))) :=
  ⟨by decide,
   c2_seeding_separation (detConst (some [((20 : ℚ), 0)])) 0 trkOrigin (by decide)⟩

/-- Claim C6: within one `run` iteration the seeding pass executes exactly on
frames whose counter is divisible by `detect_interval = 5`: otherwise the
track set is just the extension-phase result; on seeding frames the detector
is called on the mask excluding the radius-5 disks around the (post
extension) live tracks' newest points — a pixel is masked out exactly when it
lies within squared distance 25 of some newest point — and every track the
pass adds has length exactly 1. -/
theorem c6_seeding_schedule {Img : Type} (flow : FlowFn Img)
    (detect : DetectFn Img) (st : TrackerState Img) (frame : Img) :
    (st.frame_idx % detect_interval ≠ 0 →
      (step flow detect st frame).tracks = extPhase flow st frame) ∧
    (st.frame_idx % detect_interval = 0 →
      (step flow detect st frame).tracks
        = get_new_tracks detect frame (extPhase flow st frame) ∧
      ∀ t' ∈ (step flow detect st frame).tracks.drop
          (extPhase flow st frame).length,
        t'.length = 1) ∧
    (∀ q : ℤ × ℤ, buildMask (extPhase flow st frame) q = false ↔
      ∃ t ∈ extPhase flow st frame, sqDist q (truncPt (lastD t)) ≤ 25) := by
  refine ⟨?_, ?_, ?_⟩
  · intro h
    simp only [step, if_neg h]
  · intro h
    refine ⟨by simp only [step, if_pos h], ?_⟩
    intro t' ht'
    simp only [step, if_pos h] at ht'
    cases hd : detect frame (buildMask (extPhase flow st frame)) with
    | none =>
      rw [get_new_tracks_none hd, List.drop_length] at ht'
      simp at ht'
    | some ps =>
      rw [get_new_tracks_some hd, List.drop_left] at ht'
      obtain ⟨p, -, rfl⟩ := List.mem_map.mp ht'
      rfl
  · intro q
    simp only [buildMask]
    rw [Bool.eq_false_iff]
    simp only [Ne, List.all_eq_true, decide_eq_true_eq]
    push_neg
    rfl

theorem c6_witness :
    (5 : Nat) % detect_interval = 0 ∧
    (step flowId (detConst (some [((1 : ℚ), 2)])) ⟨[], 5, 0⟩ 7).tracks
      = get_new_tracks (detConst (some [((1 : ℚ), 2)])) 7
          (extPhase flowId ⟨[], 5, 0⟩ 7) :=
  ⟨by decide,
   ((c6_seeding_schedule flowId (detConst (some [((1 : ℚ), 2)]))
      ⟨[], 5, 0⟩ 7).2.1 (by decide)).1⟩
